import Mathlib

/-!
The redemption dispatcher of miragemod (`main.go`).

A shallow embedding of one iteration of the `for { select { ... } }` loop of
`main` (lines 92-159) together with the data it works on.

Modelling conventions.

* Go `int` is the 64-bit two's complement integer: values are `Int`, and the
  two `+= 1` of lines 131-132 wrap (`wrapInt`).
* `time.Time` instants and `time.Duration` are nanosecond counts (`Int`) on
  one time line; `Time.Sub` saturates to the `int64` range of `Duration` as
  Go's does. The two clock readings of an accepted redemption (inside
  `time.Since`, line 126, and `time.Now()`, line 137) are separate inputs.
* The JSON decoder (`jsoniter`) is an external library. A message is given by
  what `Unmarshal` makes of its `Value`; the effect of `Unmarshal` on the
  variable it is pointed at follows the Go rules for maps ("If the map is nil,
  Unmarshal allocates a new map. Otherwise Unmarshal reuses the existing map,
  keeping existing entries"; JSON `null` sets the map to nil), which the map
  decoder of `jsoniter` implements as well.
* `figmentCounts` is a Go map: `none` is the nil map, `some m` a non-nil map
  with `m k = none` for an absent key.
* Everything the iteration does to the outside world (broker writes, log
  lines) is returned as a list of `Effect`s, in program order.
-/

namespace Miragemod

/-! ## Go integers, durations and instants -/

/-- Smallest value of Go `int` (64 bit). -/
def minInt : Int := -9223372036854775808

/-- Largest value of Go `int` (64 bit). -/
def maxInt : Int := 9223372036854775807

/-- Two's complement wrap-around of a mathematical integer into Go `int`. -/
def wrapInt (x : Int) : Int := (x + 9223372036854775808) % 18446744073709551616 - 9223372036854775808

/-- Constant `time.Hour`, in nanoseconds. -/
def Hour : Int := 3600000000000

/-- Constant `minDuration` of package `time`. -/
def minDuration : Int := -9223372036854775808

/-- Constant `maxDuration` of package `time`. -/
def maxDuration : Int := 9223372036854775807

/-- Method `Time.Sub` of package `time`: the duration `t - u`, saturated to
`minDuration` / `maxDuration` when the difference does not fit. -/
def Time.Sub (t u : Int) : Int :=
  if t - u < minDuration then minDuration
  else if maxDuration < t - u then maxDuration
  else t - u

/-! ## Data model -/

/-- Struct `FigmentEntry` (lines 27-32). -/
structure FigmentEntry where
  Name : String
  Count : Int
  Total : Int
  LastRedeem : Int
deriving DecidableEq

/-- A non-nil `map[string]FigmentEntry`: `none` for an absent key. -/
abbrev Ledger := String → Option FigmentEntry

/-- Result of `make(map[string]FigmentEntry)`. -/
def emptyLedger : Ledger := fun _ => none

/-- Map assignment `m[k] = e`. -/
def Ledger.set (m : Ledger) (k : String) (e : FigmentEntry) : Ledger :=
  fun k' => if k' = k then some e else m k'

/-- The process-wide variable `figmentCounts` (line 77); `none` is the nil map. -/
structure State where
  figmentCounts : Option Ledger

/-- Map read `figmentCounts[k]` with its `ok` flag; a nil map has no entries. -/
def State.lookup (st : State) (k : String) : Option FigmentEntry :=
  match st.figmentCounts with
  | none => none
  | some m => m k

/-- The fields of `helix.EventSubChannelPointsCustomRewardRedemptionEvent`
that `main` reads: `Reward.ID`, `Reward.Title`, `UserID`, `UserName`. -/
structure RedemptionEvent where
  RewardID : String
  RewardTitle : String
  UserID : String
  UserName : String
deriving DecidableEq

/-- Struct `eventSubNotification` (lines 34-38) after line 108 decoded it.
`Event` stands for the raw `event` member by what line 115 makes of it:
`none` when `Unmarshal(payload.Event, &data)` returns an error. -/
structure eventSubNotification where
  SubscriptionType : String
  Challenge : String
  Event : Option RedemptionEvent
deriving DecidableEq

/-- A message of the `webhook` subscription, by the outcome of line 108. -/
inductive WebhookMsg where
  /-- `Unmarshal` returned the error `err`. -/
  | undecodable (err : String)
  /-- `Unmarshal` succeeded and filled `payload`. -/
  | decoded (payload : eventSubNotification)
deriving DecidableEq

/-- A message of the `figments` subscription, by what
`Unmarshal([]byte(msg.Value), &figmentCounts)` (line 97) makes of its value. -/
inductive FigmentsMsg where
  /-- The value does not decode as a `map[string]FigmentEntry`: `err != nil`. -/
  | invalid (err : String)
  /-- The value is the JSON literal `null`. -/
  | null
  /-- The value is a JSON object; its members in document order. -/
  | object (members : List (String × FigmentEntry))
deriving DecidableEq

/-- One ready message of the `select` (lines 93-106). -/
inductive Msg where
  | figments (m : FigmentsMsg)
  | chat (value : String)
  | webhook (m : WebhookMsg)
deriving DecidableEq

/-- The command-line flags the loop uses (lines 43-44). -/
structure Config where
  prefixFlag : String
  rewardID : String

/-- What one iteration observes from its environment. -/
structure Env where
  /-- the clock as read inside `time.Since` (line 126) -/
  sinceClock : Int
  /-- the value of `time.Now()` at line 137 -/
  now : Int
  /-- the error returned by `client.SetJSON` at line 139, if any -/
  setJSONErr : Option String

/-- Log levels used by the loop. -/
inductive Level where
  | info
  | error
deriving DecidableEq

/-- What an iteration does to the outside world. -/
inductive Effect where
  /-- a logrus entry: level, message, fields -/
  | log (level : Level) (message : String) (fields : List (String × String))
  /-- call `client.SetJSON(path, &figmentCounts)` with the map it is given -/
  | setJSON (path : String) (value : Ledger)
  /-- call `client.SetKey(key, value)` -/
  | setKey (key : String) (value : String)

/-! ## The program -/

/-- Variable `path` (line 76): `fmt.Sprintf("%sfigments", *prefix)`. -/
def path (cfg : Config) : String := cfg.prefixFlag ++ "figments"

/-- Function `say` (lines 162-164), its format already applied. -/
def say (text : String) : Effect := Effect.setKey "twitch/@send-chat-message" text

/-- The subscription type tested at line 113. -/
def redemptionAdd : String := "channel.channel_points_custom_reward_redemption.add"

/-- The cooldown reply of line 127. -/
def cooldownText (userName : String) : String :=
  userName ++ ": You can only claim a figment once a day"

/-- Variable `suffix` as computed by lines 143-153. Go's `%` truncates
toward zero (`Int.tmod`). -/
def suffix (total : Int) : String :=
  if total < 10 ∨ total > 20 then
    if Int.tmod total 10 = 1 then "st"
    else if Int.tmod total 10 = 2 then "nd"
    else if Int.tmod total 10 = 3 then "rd"
    else "th"
  else "th"

/-- The success reply of line 154:
`"%s: You claimed your ⭐ %d%s figment! ⭐ (balance: %d)"`. -/
def successText (userName : String) (total : Int) (count : Int) : String :=
  userName ++ ": You claimed your ⭐ " ++ toString total ++ suffix total
    ++ " figment! ⭐ (balance: " ++ toString count ++ ")"

/-- Lines 131-155: the redemption is accepted, `total` and `count` holding
the values read at lines 120-124. The map assignment of line 133 panics on
a nil map (`none`). -/
def accept (cfg : Config) (env : Env) (st : State) (data : RedemptionEvent)
    (total count : Int) : Option (State × List Effect) :=
  let total := wrapInt (total + 1)
  let count := wrapInt (count + 1)
  match st.figmentCounts with
  | none => none
  | some m =>
    let m := m.set data.UserID
      { Name := data.UserName, Count := count, Total := total, LastRedeem := env.now }
    let persisted : List Effect :=
      match env.setJSONErr with
      | none => [Effect.setJSON (path cfg) m]
      | some err =>
        [Effect.setJSON (path cfg) m,
         Effect.log Level.error "Failed to update figment map" [("error", err)]]
    some ({ figmentCounts := some m },
      persisted ++
        [say (successText data.UserName total count),
         Effect.log Level.info "Redeemed"
           [("user", data.UserID), ("reward", data.RewardTitle)]])

/-- Lines 119-156: the body run for a decoded redemption event. -/
def redeem (cfg : Config) (env : Env) (st : State) (data : RedemptionEvent) :
    Option (State × List Effect) :=
  if data.RewardID = cfg.rewardID then
    match st.lookup data.UserID with
    | some entry =>
      if Time.Sub env.sinceClock entry.LastRedeem < Hour * 15 then
        some (st, [say (cooldownText data.UserName)])
      else
        accept cfg env st data entry.Total entry.Count
    | none => accept cfg env st data 0 0
  else
    some (st, [])

/-- Lines 106-157: the `webhook` case. -/
def handleWebhook (cfg : Config) (env : Env) (st : State) (msg : WebhookMsg) :
    Option (State × List Effect) :=
  match msg with
  | WebhookMsg.undecodable err =>
    some (st, [Effect.log Level.error "Failed to decode webhook payload" [("error", err)]])
  | WebhookMsg.decoded payload =>
    if payload.SubscriptionType = redemptionAdd then
      match payload.Event with
      | none => some (st, [])
      | some data => redeem cfg env st data
    else
      some (st, [])

/-- What a successful `Unmarshal` of a JSON object leaves in the map variable
it is pointed at: a nil map is replaced by a fresh one, a non-nil map is
reused with the entries it has, and each member is then stored in turn. -/
def unmarshalObject (old : Option Ledger) (members : List (String × FigmentEntry)) : Ledger :=
  members.foldl (fun m kv => m.set kv.1 kv.2) (old.getD emptyLedger)

/-- Lines 94-102: the `figments` case. -/
def handleFigments (st : State) (msg : FigmentsMsg) : State × List Effect :=
  let changed := Effect.log Level.info
    "Figment count changed outside miragemod, updating local copy" []
  match msg with
  | FigmentsMsg.invalid err =>
    ({ figmentCounts := some emptyLedger },
      [changed,
       Effect.log Level.error "Failed to decode new figment count, resetting" [("error", err)]])
  | FigmentsMsg.null => ({ figmentCounts := none }, [changed])
  | FigmentsMsg.object members =>
    ({ figmentCounts := some (unmarshalObject st.figmentCounts members) }, [changed])

/-- One iteration of the loop of lines 92-159 on the message the `select`
received; `none` when the iteration panics. -/
def step (cfg : Config) (env : Env) (st : State) (msg : Msg) : Option (State × List Effect) :=
  match msg with
  | Msg.figments m => some (handleFigments st m)
  | Msg.chat _ => some (st, [])
  | Msg.webhook m => handleWebhook cfg env st m

/-- The JSON object a ledger-changed value spells out, read on its own:
the mapping its members define. -/
def decodedLedger (members : List (String × FigmentEntry)) : Ledger :=
  unmarshalObject none members

/-! ## Observers used to state the properties -/

/-- The texts written to the send-chat-message key, in order. -/
def chatTexts : List Effect → List String
  | [] => []
  | Effect.setKey key value :: rest =>
    if key = "twitch/@send-chat-message" then value :: chatTexts rest else chatTexts rest
  | _ :: rest => chatTexts rest

/-- The number of `SetJSON` calls (persistence writes). -/
def persistWrites : List Effect → Nat
  | [] => 0
  | Effect.setJSON _ _ :: rest => persistWrites rest + 1
  | _ :: rest => persistWrites rest

/-- The number of log entries. -/
def logEntries : List Effect → Nat
  | [] => 0
  | Effect.log _ _ _ :: rest => logEntries rest + 1
  | _ :: rest => logEntries rest

/-- The value `total` holds after lines 120-124 for user `uid`. -/
def prevTotal (st : State) (uid : String) : Int :=
  match st.lookup uid with
  | some entry => entry.Total
  | none => 0

/-- The value `count` holds after lines 120-124 for user `uid`. -/
def prevCount (st : State) (uid : String) : Int :=
  match st.lookup uid with
  | some entry => entry.Count
  | none => 0

/-- The cooldown check of lines 122-129 lets user `uid` through: there is no
entry, or at least 15 hours have elapsed since its `LastRedeem`. -/
def passesCooldown (sinceClock : Int) (st : State) (uid : String) : Prop :=
  match st.lookup uid with
  | none => True
  | some entry => 15 * Hour ≤ sinceClock - entry.LastRedeem

/-- The webhook message is a redemption-add notification whose event decodes
to `data`, for the configured reward, and `data.UserID` passes the cooldown
check. -/
def Accepted (cfg : Config) (sinceClock : Int) (st : State) (msg : WebhookMsg)
    (data : RedemptionEvent) : Prop :=
  match msg with
  | WebhookMsg.undecodable _ => False
  | WebhookMsg.decoded payload =>
    payload.SubscriptionType = redemptionAdd ∧ payload.Event = some data ∧
    data.RewardID = cfg.rewardID ∧ passesCooldown sinceClock st data.UserID

/-- The ordinal suffix as the specification words it: "th" when the last two
digits are 11-20, otherwise by the last digit. -/
def ordinalSuffixSpec (total : Int) : String :=
  if 11 ≤ total % 100 ∧ total % 100 ≤ 20 then "th"
  else if total % 10 = 1 then "st"
  else if total % 10 = 2 then "nd"
  else if total % 10 = 3 then "rd"
  else "th"

/-- An entry whose counters can be incremented without leaving Go `int`. -/
def FigmentEntry.belowMax (e : FigmentEntry) : Prop :=
  minInt ≤ e.Count ∧ e.Count < maxInt ∧ minInt ≤ e.Total ∧ e.Total < maxInt

instance (e : FigmentEntry) : Decidable e.belowMax := by
  unfold FigmentEntry.belowMax
  infer_instance

instance (sinceClock : Int) (st : State) (uid : String) :
    Decidable (passesCooldown sinceClock st uid) := by
  unfold passesCooldown
  split <;> infer_instance

instance (cfg : Config) (sinceClock : Int) (st : State) (msg : WebhookMsg)
    (data : RedemptionEvent) : Decidable (Accepted cfg sinceClock st msg data) := by
  unfold Accepted
  split <;> infer_instance

/-! ## Concrete data for the examples -/

/-- A configuration with the default flags. -/
def cfgEx : Config :=
  { prefixFlag := "mirage/", rewardID := "a715bd7d-9454-4ff4-b91f-f74ffc97d63f" }

/-- A redemption of the configured reward by user `U1`. -/
def eventEx : RedemptionEvent :=
  { RewardID := "a715bd7d-9454-4ff4-b91f-f74ffc97d63f", RewardTitle := "Figment",
    UserID := "U1", UserName := "Ash" }

/-- A redemption of another reward by user `U1`. -/
def otherEventEx : RedemptionEvent :=
  { RewardID := "some-other-reward", RewardTitle := "Hydrate",
    UserID := "U1", UserName := "Ash" }

/-- The webhook message carrying `eventEx`. -/
def redeemMsgEx : WebhookMsg :=
  WebhookMsg.decoded { SubscriptionType := redemptionAdd, Challenge := "", Event := some eventEx }

/-- An instant 100 hours after the epoch, with a successful persistence write. -/
def envEx : Env := { sinceClock := 100 * Hour, now := 100 * Hour, setJSONErr := none }

/-- A ledger holding only `U1` with the given counters and last redemption. -/
def ledgerEx (count total lastRedeem : Int) : Ledger :=
  emptyLedger.set "U1" { Name := "Ash", Count := count, Total := total, LastRedeem := lastRedeem }

/-! ## Properties -/

/-- Saturation does not change the comparison of line 126: the saturated
duration is below 15 hours exactly when the exact difference is. -/
theorem Time.Sub_lt_cooldown (t u : Int) : Time.Sub t u < Hour * 15 ↔ t - u < 15 * Hour := by
  unfold Time.Sub minDuration maxDuration Hour
  split_ifs <;> omega

/-- Below the largest `int`, `+= 1` is the mathematical successor. -/
theorem wrapInt_succ (x : Int) (hlo : minInt ≤ x) (hhi : x < maxInt) : wrapInt (x + 1) = x + 1 := by
  unfold minInt at hlo
  unfold maxInt at hhi
  unfold wrapInt
  omega

/-- The cooldown reply is never a success reply: after the user name the two
texts part at "can" / "claimed". -/
theorem cooldownText_ne_successText (n : String) (t c : Int) :
    cooldownText n ≠ successText n t c := by
  intro h
  have h2 := congrArg String.data h
  simp only [cooldownText, successText, String.data_append, List.append_assoc] at h2
  have h3 := List.append_cancel_left h2
  simp at h3

/-- The `webhook` case either runs lines 131-155 for an accepted redemption,
or leaves the state alone and writes nothing to storage. -/
theorem handleWebhook_cases (cfg : Config) (env : Env) (st : State) (msg : WebhookMsg) :
    (∃ data, Accepted cfg env.sinceClock st msg data ∧
      step cfg env st (Msg.webhook msg)
        = accept cfg env st data (prevTotal st data.UserID) (prevCount st data.UserID)) ∨
    ((∀ data, ¬ Accepted cfg env.sinceClock st msg data) ∧
      ∃ effs, step cfg env st (Msg.webhook msg) = some (st, effs) ∧ persistWrites effs = 0) := by
  cases msg with
  | undecodable err =>
    right
    exact ⟨fun _ h => h, _, rfl, rfl⟩
  | decoded payload =>
    obtain ⟨ty, ch, ev⟩ := payload
    by_cases hty : ty = redemptionAdd
    · cases ev with
      | none =>
        right
        refine ⟨fun data h => ?_, [], ?_, rfl⟩
        · simp [Accepted] at h
        · simp [step, handleWebhook, hty]
      | some data =>
        by_cases hrew : data.RewardID = cfg.rewardID
        · cases hl : st.lookup data.UserID with
          | none =>
            left
            refine ⟨data, ?_, ?_⟩
            · simp [Accepted, passesCooldown, hty, hrew, hl]
            · simp [step, handleWebhook, redeem, hty, hrew, hl, prevTotal, prevCount]
          | some entry =>
            by_cases hcool : env.sinceClock - entry.LastRedeem < 15 * Hour
            · right
              have h := (Time.Sub_lt_cooldown env.sinceClock entry.LastRedeem).mpr hcool
              refine ⟨fun d hd => ?_, [say (cooldownText data.UserName)], ?_, rfl⟩
              · simp only [Accepted, Option.some.injEq] at hd
                obtain ⟨-, hev, -, hp⟩ := hd
                subst hev
                simp only [passesCooldown, hl] at hp
                omega
              · simp [step, handleWebhook, redeem, hty, hrew, hl, h]
            · left
              have h : ¬ Time.Sub env.sinceClock entry.LastRedeem < Hour * 15 := by
                rw [Time.Sub_lt_cooldown]; exact hcool
              refine ⟨data, ?_, ?_⟩
              · simp only [Accepted, passesCooldown, hl]
                exact ⟨hty, trivial, hrew, by omega⟩
              · simp [step, handleWebhook, redeem, hty, hrew, hl, h, prevTotal, prevCount]
        · right
          refine ⟨fun d hd => ?_, [], ?_, rfl⟩
          · simp only [Accepted, Option.some.injEq] at hd
            obtain ⟨-, hev, hr, -⟩ := hd
            subst hev
            exact hrew hr
          · simp [step, handleWebhook, redeem, hty, hrew]
    · right
      refine ⟨fun d hd => ?_, [], ?_, rfl⟩
      · simp only [Accepted] at hd
        exact hty hd.1
      · simp [step, handleWebhook, hty]

/-- The event a webhook message is accepted for is the one it carries. -/
theorem Accepted_unique (cfg : Config) (t : Int) (st : State) (msg : WebhookMsg)
    (d1 d2 : RedemptionEvent) (h1 : Accepted cfg t st msg d1) (h2 : Accepted cfg t st msg d2) :
    d1 = d2 := by
  cases msg with
  | undecodable err => exact h1.elim
  | decoded payload =>
    simp only [Accepted] at h1 h2
    have := h1.2.1.symm.trans h2.2.1
    exact Option.some.inj this

/-- C2: a redemption of the configured reward by a user who has an entry and
for whom less than 15 hours have elapsed since `last_redeem` leaves the ledger
as it is, writes nothing to storage, and sends exactly the cooldown reply,
which is no success reply. -/
theorem cooldown_blocks_redemption (cfg : Config) (env : Env) (m : Ledger)
    (data : RedemptionEvent) (challenge : String) (entry : FigmentEntry)
    (hreward : data.RewardID = cfg.rewardID)
    (hentry : m data.UserID = some entry)
    (hcool : env.sinceClock - entry.LastRedeem < 15 * Hour) :
    ∃ effs,
      step cfg env { figmentCounts := some m }
          (Msg.webhook (WebhookMsg.decoded
            { SubscriptionType := redemptionAdd, Challenge := challenge, Event := some data }))
        = some ({ figmentCounts := some m }, effs) ∧
      persistWrites effs = 0 ∧
      chatTexts effs = [data.UserName ++ ": You can only claim a figment once a day"] ∧
      ∀ total count, successText data.UserName total count ∉ chatTexts effs := by
  refine ⟨[say (cooldownText data.UserName)], ?_, rfl, ?_, ?_⟩
  · have h := (Time.Sub_lt_cooldown env.sinceClock entry.LastRedeem).mpr hcool
    simp [step, handleWebhook, redeem, State.lookup, hreward, hentry, h]
  · simp [say, chatTexts, cooldownText]
  · intro total count hmem
    simp only [say, chatTexts, if_true, List.mem_singleton] at hmem
    exact cooldownText_ne_successText _ _ _ hmem.symm

/-- C2, the example of the specification: `U1` with count 5, total 11 and a
last redemption one hour ago. -/
theorem cooldown_blocks_redemption_witness :
    eventEx.RewardID = cfgEx.rewardID ∧
    ledgerEx 5 11 (99 * Hour) eventEx.UserID
      = some { Name := "Ash", Count := 5, Total := 11, LastRedeem := 99 * Hour } ∧
    envEx.sinceClock - 99 * Hour < 15 * Hour ∧
    ∃ effs,
      step cfgEx envEx { figmentCounts := some (ledgerEx 5 11 (99 * Hour)) }
          (Msg.webhook (WebhookMsg.decoded
            { SubscriptionType := redemptionAdd, Challenge := "", Event := some eventEx }))
        = some ({ figmentCounts := some (ledgerEx 5 11 (99 * Hour)) }, effs) ∧
      persistWrites effs = 0 ∧
      chatTexts effs = [eventEx.UserName ++ ": You can only claim a figment once a day"] ∧
      ∀ total count, successText eventEx.UserName total count ∉ chatTexts effs :=
  ⟨by decide, by decide, by decide,
    cooldown_blocks_redemption cfgEx envEx (ledgerEx 5 11 (99 * Hour)) eventEx ""
      { Name := "Ash", Count := 5, Total := 11, LastRedeem := 99 * Hour }
      (by decide) (by decide) (by decide)⟩

/-- The chat texts of an accepted redemption: the success reply alone. -/
theorem chatTexts_accept (cfg : Config) (env : Env) (m : Ledger) (data : RedemptionEvent)
    (total count : Int) :
    ∃ effs, accept cfg env { figmentCounts := some m } data total count
        = some ({ figmentCounts := some (m.set data.UserID
            { Name := data.UserName, Count := wrapInt (count + 1),
              Total := wrapInt (total + 1), LastRedeem := env.now }) }, effs) ∧
      chatTexts effs = [successText data.UserName (wrapInt (total + 1)) (wrapInt (count + 1))] ∧
      persistWrites effs = 1 := by
  unfold accept
  cases env.setJSONErr <;> simp [say, chatTexts, persistWrites]

/-- C3 (amended): a redemption of the configured reward by a user whose entry
`{count c, total t, last_redeem r}` has `c` and `t` below the largest `int`,
at least 15 hours after `r` (exactly 15 hours included), is accepted: the
ledger then maps the user to `{name N, count c+1, total t+1, last_redeem now}`
and the only chat reply is the success reply, not the cooldown reply. -/
theorem redemption_after_cooldown (cfg : Config) (env : Env) (m : Ledger)
    (data : RedemptionEvent) (challenge : String) (entry : FigmentEntry)
    (hreward : data.RewardID = cfg.rewardID)
    (hentry : m data.UserID = some entry)
    (hrange : entry.belowMax)
    (hcool : 15 * Hour ≤ env.sinceClock - entry.LastRedeem) :
    ∃ m' effs,
      step cfg env { figmentCounts := some m }
          (Msg.webhook (WebhookMsg.decoded
            { SubscriptionType := redemptionAdd, Challenge := challenge, Event := some data }))
        = some ({ figmentCounts := some m' }, effs) ∧
      m' data.UserID = some ⟨data.UserName, entry.Count + 1, entry.Total + 1, env.now⟩ ∧
      (∀ v, v ≠ data.UserID → m' v = m v) ∧
      chatTexts effs = [successText data.UserName (entry.Total + 1) (entry.Count + 1)] ∧
      cooldownText data.UserName ∉ chatTexts effs := by
  obtain ⟨hc1, hc2, ht1, ht2⟩ := hrange
  obtain ⟨effs, hacc, hchat, -⟩ := chatTexts_accept cfg env m data entry.Total entry.Count
  rw [wrapInt_succ _ hc1 hc2, wrapInt_succ _ ht1 ht2] at hacc hchat
  have h : ¬ Time.Sub env.sinceClock entry.LastRedeem < Hour * 15 := by
    rw [Time.Sub_lt_cooldown]; omega
  refine ⟨m.set data.UserID ⟨data.UserName, entry.Count + 1, entry.Total + 1, env.now⟩,
    effs, ?_, ?_, ?_, hchat, ?_⟩
  · simp [step, handleWebhook, redeem, State.lookup, hreward, hentry, h, hacc]
  · simp [Ledger.set]
  · intro v hv
    simp [Ledger.set, hv]
  · rw [hchat, List.mem_singleton]
    exact cooldownText_ne_successText _ _ _

/-- C3 (amended), at the boundary of exactly 15 hours. -/
theorem redemption_after_cooldown_witness :
    eventEx.RewardID = cfgEx.rewardID ∧
    ledgerEx 5 11 (85 * Hour) eventEx.UserID
      = some { Name := "Ash", Count := 5, Total := 11, LastRedeem := 85 * Hour } ∧
    FigmentEntry.belowMax { Name := "Ash", Count := 5, Total := 11, LastRedeem := 85 * Hour } ∧
    15 * Hour ≤ envEx.sinceClock - 85 * Hour ∧
    ∃ m' effs,
      step cfgEx envEx { figmentCounts := some (ledgerEx 5 11 (85 * Hour)) }
          (Msg.webhook (WebhookMsg.decoded
            { SubscriptionType := redemptionAdd, Challenge := "", Event := some eventEx }))
        = some ({ figmentCounts := some m' }, effs) ∧
      m' eventEx.UserID = some ⟨eventEx.UserName, 5 + 1, 11 + 1, envEx.now⟩ ∧
      (∀ v, v ≠ eventEx.UserID → m' v = ledgerEx 5 11 (85 * Hour) v) ∧
      chatTexts effs = [successText eventEx.UserName (11 + 1) (5 + 1)] ∧
      cooldownText eventEx.UserName ∉ chatTexts effs :=
  ⟨by decide, by decide, by decide, by decide,
    redemption_after_cooldown cfgEx envEx (ledgerEx 5 11 (85 * Hour)) eventEx ""
      { Name := "Ash", Count := 5, Total := 11, LastRedeem := 85 * Hour }
      (by decide) (by decide) (by decide) (by decide)⟩

/-- C3 as stated fails where `count` is the largest `int`: 15 hours or more
have elapsed, the redemption is accepted, and the stored count is the
smallest `int`, not `c + 1`. -/
theorem redemption_count_wraps :
    eventEx.RewardID = cfgEx.rewardID ∧
    ledgerEx 9223372036854775807 11 0 "U1"
      = some { Name := "Ash", Count := 9223372036854775807, Total := 11, LastRedeem := 0 } ∧
    15 * Hour ≤ envEx.sinceClock - 0 ∧
    (step cfgEx envEx { figmentCounts := some (ledgerEx 9223372036854775807 11 0) }
        (Msg.webhook redeemMsgEx)).map (fun r => r.1.lookup "U1")
      = some (some { Name := "Ash", Count := -9223372036854775808, Total := 12,
                     LastRedeem := 100 * Hour }) ∧
    (-9223372036854775808 : Int) ≠ 9223372036854775807 + 1 := by
  decide

/-- A first redemption on a non-nil map: for a user with no entry, the
redemption of the configured reward is accepted without a cooldown check,
the user is stored with total 1 and count 1, and the reply is the "1st"
text. -/
theorem first_redemption (cfg : Config) (env : Env) (m : Ledger)
    (data : RedemptionEvent) (challenge : String)
    (hreward : data.RewardID = cfg.rewardID)
    (hnew : m data.UserID = none) :
    ∃ m' effs,
      step cfg env { figmentCounts := some m }
          (Msg.webhook (WebhookMsg.decoded
            { SubscriptionType := redemptionAdd, Challenge := challenge, Event := some data }))
        = some ({ figmentCounts := some m' }, effs) ∧
      m' data.UserID = some ⟨data.UserName, 1, 1, env.now⟩ ∧
      (∀ v, v ≠ data.UserID → m' v = m v) ∧
      chatTexts effs
        = [data.UserName ++ ": You claimed your ⭐ 1st figment! ⭐ (balance: 1)"] := by
  obtain ⟨effs, hacc, hchat, -⟩ := chatTexts_accept cfg env m data 0 0
  have hw : wrapInt (0 + 1) = 1 := by decide
  rw [hw] at hacc hchat
  refine ⟨m.set data.UserID ⟨data.UserName, 1, 1, env.now⟩, effs, ?_, ?_, ?_, ?_⟩
  · simp [step, handleWebhook, redeem, State.lookup, hreward, hnew, hacc]
  · simp [Ledger.set]
  · intro v hv
    simp [Ledger.set, hv]
  · rw [hchat]
    have h1 : toString (1 : Int) = "1" := by decide
    have h2 : suffix 1 = "st" := by decide
    simp only [successText, h1, h2, String.append_assoc]
    rfl

/-- C4: the nil map. A ledger-changed message whose value is `null` leaves
`figmentCounts` nil; `U1` has no entry in it, and the next redemption of the
configured reward by `U1` panics at the map assignment instead of being
accepted. -/
theorem first_redemption_on_nil_map_panics :
    ∃ st effs,
      step cfgEx envEx { figmentCounts := some emptyLedger } (Msg.figments FigmentsMsg.null)
        = some (st, effs) ∧
      st.lookup eventEx.UserID = none ∧
      eventEx.RewardID = cfgEx.rewardID ∧
      step cfgEx envEx st (Msg.webhook redeemMsgEx) = none :=
  ⟨{ figmentCounts := none }, _, rfl, rfl, by decide, rfl⟩

/-- What line 97 leaves of the old map: a key that is not a member of the
decoded object keeps the entry it had. -/
theorem unmarshalObject_keeps (members : List (String × FigmentEntry)) (m : Ledger) (k : String)
    (hk : ∀ kv ∈ members, kv.1 ≠ k) :
    unmarshalObject (some m) members k = m k := by
  unfold unmarshalObject
  simp only [Option.getD_some]
  induction members generalizing m with
  | nil => rfl
  | cons kv rest ih =>
    simp only [List.foldl_cons]
    rw [ih]
    · have : k ≠ kv.1 := fun h => hk kv (List.mem_cons_self _ _) h.symm
      simp [Ledger.set, this]
    · intro kv' hmem
      exact hk kv' (List.mem_cons_of_mem _ hmem)

/-- C5: the local copy is not replaced. The in-memory ledger holds `U1`; a
ledger-changed message carries the valid object with the single member `U2`.
The decoded mapping has no `U1`, yet after the message is handled `U1` is
still in the in-memory ledger, next to `U2`. -/
theorem ledger_change_keeps_old_entries :
    decodedLedger [("U2", ⟨"Bo", 1, 1, 0⟩)] "U1" = none ∧
    (step cfgEx envEx { figmentCounts := some (ledgerEx 5 11 0) }
        (Msg.figments (FigmentsMsg.object [("U2", ⟨"Bo", 1, 1, 0⟩)]))).map
          (fun r => (r.1.lookup "U1", r.1.lookup "U2"))
      = some (some ⟨"Ash", 5, 11, 0⟩, some ⟨"Bo", 1, 1, 0⟩) := by
  decide

/-- C6: a ledger-changed message whose value does not decode resets the
in-memory ledger to the empty mapping, whatever it held, and issues two log
entries and nothing else: no chat message, no persistence write. -/
theorem ledger_change_invalid_resets (cfg : Config) (env : Env) (st : State) (err : String) :
    ∃ effs,
      step cfg env st (Msg.figments (FigmentsMsg.invalid err))
        = some ({ figmentCounts := some emptyLedger }, effs) ∧
      (∀ k, emptyLedger k = none) ∧
      chatTexts effs = [] ∧ persistWrites effs = 0 ∧ logEntries effs = 2 ∧ effs.length = 2 :=
  ⟨_, rfl, fun _ => rfl, rfl, rfl, rfl, rfl⟩

/-- C7: a redemption-add webhook for a reward other than the configured one
leaves the in-memory ledger unchanged and has no effect at all (the list of
effects is empty): no persistence write, no chat reply, no log entry. -/
theorem other_reward_is_ignored (cfg : Config) (env : Env) (st : State)
    (data : RedemptionEvent) (challenge : String)
    (hreward : data.RewardID ≠ cfg.rewardID) :
    step cfg env st
        (Msg.webhook (WebhookMsg.decoded
          { SubscriptionType := redemptionAdd, Challenge := challenge, Event := some data }))
      = some (st, []) := by
  simp [step, handleWebhook, redeem, hreward]

/-- C7, on a ledger that holds the redeeming user. -/
theorem other_reward_is_ignored_witness :
    otherEventEx.RewardID ≠ cfgEx.rewardID ∧
    step cfgEx envEx { figmentCounts := some (ledgerEx 5 11 0) }
        (Msg.webhook (WebhookMsg.decoded
          { SubscriptionType := redemptionAdd, Challenge := "", Event := some otherEventEx }))
      = some ({ figmentCounts := some (ledgerEx 5 11 0) }, []) :=
  ⟨by decide,
    other_reward_is_ignored cfgEx envEx { figmentCounts := some (ledgerEx 5 11 0) }
      otherEventEx "" (by decide)⟩

/-- C8 (amended): for an accepted redemption the resulting in-memory ledger
and the chat reply are the same whether the persistence write succeeds or
fails, and the failure only adds one log entry; the redeeming user's entry
carries the new name and time, every other entry is untouched. When the
user's previous total `t` and count `c` are below the largest `int`, the
entry after a failed write is the incremented one, `{count c+1, total t+1}`,
and the reply sent is the success reply with total `t+1` and balance `c+1`. -/
theorem persistence_failure_keeps_result (cfg : Config) (sinceClock now : Int) (m : Ledger)
    (msg : WebhookMsg) (data : RedemptionEvent) (err : String)
    (hacc : Accepted cfg sinceClock { figmentCounts := some m } msg data) :
    ∃ m' okEffs failEffs,
      step cfg { sinceClock := sinceClock, now := now, setJSONErr := none }
          { figmentCounts := some m } (Msg.webhook msg)
        = some ({ figmentCounts := some m' }, okEffs) ∧
      step cfg { sinceClock := sinceClock, now := now, setJSONErr := some err }
          { figmentCounts := some m } (Msg.webhook msg)
        = some ({ figmentCounts := some m' }, failEffs) ∧
      chatTexts failEffs = chatTexts okEffs ∧
      persistWrites failEffs = persistWrites okEffs ∧
      logEntries failEffs = logEntries okEffs + 1 ∧
      (∀ v, v ≠ data.UserID → m' v = m v) ∧
      (∃ e', m' data.UserID = some e' ∧ e'.Name = data.UserName ∧ e'.LastRedeem = now) ∧
      (minInt ≤ prevCount { figmentCounts := some m } data.UserID ∧
        prevCount { figmentCounts := some m } data.UserID < maxInt ∧
        minInt ≤ prevTotal { figmentCounts := some m } data.UserID ∧
        prevTotal { figmentCounts := some m } data.UserID < maxInt →
        m' data.UserID = some ⟨data.UserName,
          prevCount { figmentCounts := some m } data.UserID + 1,
          prevTotal { figmentCounts := some m } data.UserID + 1, now⟩ ∧
        chatTexts failEffs = [data.UserName ++ ": You claimed your ⭐ "
          ++ toString (prevTotal { figmentCounts := some m } data.UserID + 1)
          ++ suffix (prevTotal { figmentCounts := some m } data.UserID + 1)
          ++ " figment! ⭐ (balance: "
          ++ toString (prevCount { figmentCounts := some m } data.UserID + 1) ++ ")"]) := by
  rcases handleWebhook_cases cfg ⟨sinceClock, now, none⟩ ⟨some m⟩ msg with ⟨d, hd, h1⟩ | ⟨hno, -⟩
  · rcases handleWebhook_cases cfg ⟨sinceClock, now, some err⟩ ⟨some m⟩ msg
      with ⟨d', hd', h2⟩ | ⟨hno, -⟩
    · have e1 : data = d := (Accepted_unique _ _ _ _ _ _ hd hacc).symm
      have e2 : data = d' := (Accepted_unique _ _ _ _ _ _ hd' hacc).symm
      subst e1
      subst e2
      simp only [accept] at h1 h2
      refine ⟨_, _, _, h1, h2, by simp [chatTexts, say], by simp [persistWrites, say],
        by simp [logEntries, say], ?_, ?_, ?_⟩
      · intro v hv
        simp [Ledger.set, hv]
      · exact ⟨⟨data.UserName, wrapInt (prevCount ⟨some m⟩ data.UserID + 1),
          wrapInt (prevTotal ⟨some m⟩ data.UserID + 1), now⟩, by simp [Ledger.set], rfl, rfl⟩
      · rintro ⟨hc1, hc2, ht1, ht2⟩
        rw [wrapInt_succ _ hc1 hc2, wrapInt_succ _ ht1 ht2]
        exact ⟨by simp [Ledger.set], by simp [chatTexts, say, successText]⟩
    · exact (hno data hacc).elim
  · exact (hno data hacc).elim

/-- C8 (amended), for `U1` holding count 5 and total 11, last redeemed at the
epoch, and the error text "timeout". -/
theorem persistence_failure_keeps_result_witness :
    Accepted cfgEx (100 * Hour) { figmentCounts := some (ledgerEx 5 11 0) }
      redeemMsgEx eventEx ∧
    (minInt ≤ prevCount { figmentCounts := some (ledgerEx 5 11 0) } eventEx.UserID ∧
      prevCount { figmentCounts := some (ledgerEx 5 11 0) } eventEx.UserID < maxInt ∧
      minInt ≤ prevTotal { figmentCounts := some (ledgerEx 5 11 0) } eventEx.UserID ∧
      prevTotal { figmentCounts := some (ledgerEx 5 11 0) } eventEx.UserID < maxInt) ∧
    ∃ m' okEffs failEffs,
      step cfgEx { sinceClock := 100 * Hour, now := 100 * Hour, setJSONErr := none }
          { figmentCounts := some (ledgerEx 5 11 0) } (Msg.webhook redeemMsgEx)
        = some ({ figmentCounts := some m' }, okEffs) ∧
      step cfgEx { sinceClock := 100 * Hour, now := 100 * Hour, setJSONErr := some "timeout" }
          { figmentCounts := some (ledgerEx 5 11 0) } (Msg.webhook redeemMsgEx)
        = some ({ figmentCounts := some m' }, failEffs) ∧
      chatTexts failEffs = chatTexts okEffs ∧
      persistWrites failEffs = persistWrites okEffs ∧
      logEntries failEffs = logEntries okEffs + 1 ∧
      (∀ v, v ≠ eventEx.UserID → m' v = ledgerEx 5 11 0 v) ∧
      (∃ e', m' eventEx.UserID = some e' ∧ e'.Name = eventEx.UserName ∧
        e'.LastRedeem = 100 * Hour) ∧
      (minInt ≤ prevCount { figmentCounts := some (ledgerEx 5 11 0) } eventEx.UserID ∧
        prevCount { figmentCounts := some (ledgerEx 5 11 0) } eventEx.UserID < maxInt ∧
        minInt ≤ prevTotal { figmentCounts := some (ledgerEx 5 11 0) } eventEx.UserID ∧
        prevTotal { figmentCounts := some (ledgerEx 5 11 0) } eventEx.UserID < maxInt →
        m' eventEx.UserID = some ⟨eventEx.UserName,
          prevCount { figmentCounts := some (ledgerEx 5 11 0) } eventEx.UserID + 1,
          prevTotal { figmentCounts := some (ledgerEx 5 11 0) } eventEx.UserID + 1,
          100 * Hour⟩ ∧
        chatTexts failEffs = [eventEx.UserName ++ ": You claimed your ⭐ "
          ++ toString (prevTotal { figmentCounts := some (ledgerEx 5 11 0) } eventEx.UserID + 1)
          ++ suffix (prevTotal { figmentCounts := some (ledgerEx 5 11 0) } eventEx.UserID + 1)
          ++ " figment! ⭐ (balance: "
          ++ toString (prevCount { figmentCounts := some (ledgerEx 5 11 0) } eventEx.UserID + 1)
          ++ ")"]) :=
  ⟨by decide, by decide,
    persistence_failure_keeps_result cfgEx (100 * Hour) (100 * Hour) (ledgerEx 5 11 0)
      redeemMsgEx eventEx "timeout" (by decide)⟩

/-- C8 as stated fails where `count` and `total` are the largest `int`: the
redemption is accepted, the persistence write fails, and the entry kept in
memory holds the smallest `int` in both counters, not the incremented ones;
the reply carries those wrapped numbers as total and balance. -/
theorem persistence_failure_entry_wraps :
    Accepted cfgEx (100 * Hour)
      { figmentCounts := some (ledgerEx 9223372036854775807 9223372036854775807 0) }
      redeemMsgEx eventEx ∧
    (step cfgEx { sinceClock := 100 * Hour, now := 100 * Hour, setJSONErr := some "timeout" }
        { figmentCounts := some (ledgerEx 9223372036854775807 9223372036854775807 0) }
        (Msg.webhook redeemMsgEx)).map (fun r => (r.1.lookup "U1", chatTexts r.2))
      = some (some { Name := "Ash", Count := -9223372036854775808,
                     Total := -9223372036854775808, LastRedeem := 100 * Hour },
              ["Ash: You claimed your ⭐ -9223372036854775808th figment! ⭐ (balance: -9223372036854775808)"]) ∧
    (-9223372036854775808 : Int) ≠ 9223372036854775807 + 1 := by
  decide

/-- C9 (amended): handling a webhook message keeps every user of the ledger,
with total and count not below their previous values, and an accepted
redemption raises the redeeming user's total and count by exactly 1 —
provided that, when the redeeming user has an entry, its total and count are
below the largest `int`. -/
theorem counters_never_decrease (cfg : Config) (env : Env) (m : Ledger) (msg : WebhookMsg)
    (hrange : ∀ data entry, Accepted cfg env.sinceClock { figmentCounts := some m } msg data →
      m data.UserID = some entry → entry.belowMax) :
    ∃ m' effs,
      step cfg env { figmentCounts := some m } (Msg.webhook msg)
        = some ({ figmentCounts := some m' }, effs) ∧
      (∀ u e, m u = some e →
        ∃ e', m' u = some e' ∧ e.Total ≤ e'.Total ∧ e.Count ≤ e'.Count) ∧
      (∀ data, Accepted cfg env.sinceClock { figmentCounts := some m } msg data →
        ∃ e', m' data.UserID = some e' ∧
          e'.Total = prevTotal { figmentCounts := some m } data.UserID + 1 ∧
          e'.Count = prevCount { figmentCounts := some m } data.UserID + 1) := by
  rcases handleWebhook_cases cfg env ⟨some m⟩ msg with ⟨d, hd, h1⟩ | ⟨hno, effs, h1, -⟩
  · obtain ⟨effs, hacc, -, -⟩ := chatTexts_accept cfg env m d
      (prevTotal ⟨some m⟩ d.UserID) (prevCount ⟨some m⟩ d.UserID)
    have hw : wrapInt (prevTotal ⟨some m⟩ d.UserID + 1) = prevTotal ⟨some m⟩ d.UserID + 1 ∧
        wrapInt (prevCount ⟨some m⟩ d.UserID + 1) = prevCount ⟨some m⟩ d.UserID + 1 := by
      cases hl : m d.UserID with
      | none =>
        simp only [prevTotal, prevCount, State.lookup, hl]
        decide
      | some entry =>
        obtain ⟨hc1, hc2, ht1, ht2⟩ := hrange d entry hd hl
        simp only [prevTotal, prevCount, State.lookup, hl]
        exact ⟨wrapInt_succ _ ht1 ht2, wrapInt_succ _ hc1 hc2⟩
    rw [hw.1, hw.2] at hacc
    refine ⟨_, effs, h1.trans hacc, ?_, ?_⟩
    · intro u e hu
      by_cases hud : u = d.UserID
      · subst hud
        refine ⟨⟨d.UserName, prevCount ⟨some m⟩ d.UserID + 1,
          prevTotal ⟨some m⟩ d.UserID + 1, env.now⟩, by simp [Ledger.set], ?_, ?_⟩
        · simp [prevTotal, State.lookup, hu]
        · simp [prevCount, State.lookup, hu]
      · exact ⟨e, by simp [Ledger.set, hud, hu], le_refl _, le_refl _⟩
    · intro data hdata
      obtain rfl := Accepted_unique _ _ _ _ _ _ hd hdata
      exact ⟨⟨d.UserName, prevCount ⟨some m⟩ d.UserID + 1,
        prevTotal ⟨some m⟩ d.UserID + 1, env.now⟩, by simp [Ledger.set], rfl, rfl⟩
  · refine ⟨m, effs, h1, ?_, ?_⟩
    · intro u e hu
      exact ⟨e, hu, le_refl _, le_refl _⟩
    · intro data hdata
      exact (hno data hdata).elim

/-- C9 (amended), for a redemption by `U1` holding count 5 and total 11. -/
theorem counters_never_decrease_witness :
    (∀ data entry,
      Accepted cfgEx envEx.sinceClock { figmentCounts := some (ledgerEx 5 11 0) }
        redeemMsgEx data →
      ledgerEx 5 11 0 data.UserID = some entry → entry.belowMax) ∧
    ∃ m' effs,
      step cfgEx envEx { figmentCounts := some (ledgerEx 5 11 0) } (Msg.webhook redeemMsgEx)
        = some ({ figmentCounts := some m' }, effs) ∧
      (∀ u e, ledgerEx 5 11 0 u = some e →
        ∃ e', m' u = some e' ∧ e.Total ≤ e'.Total ∧ e.Count ≤ e'.Count) ∧
      (∀ data,
        Accepted cfgEx envEx.sinceClock { figmentCounts := some (ledgerEx 5 11 0) }
          redeemMsgEx data →
        ∃ e', m' data.UserID = some e' ∧
          e'.Total = prevTotal { figmentCounts := some (ledgerEx 5 11 0) } data.UserID + 1 ∧
          e'.Count = prevCount { figmentCounts := some (ledgerEx 5 11 0) } data.UserID + 1) :=
  have hrange : ∀ data entry,
      Accepted cfgEx envEx.sinceClock { figmentCounts := some (ledgerEx 5 11 0) }
        redeemMsgEx data →
      ledgerEx 5 11 0 data.UserID = some entry → entry.belowMax := by
    intro data entry hacc hentry
    obtain rfl : eventEx = data := Option.some.inj hacc.2.1
    obtain rfl : (⟨"Ash", 5, 11, 0⟩ : FigmentEntry) = entry := Option.some.inj hentry
    decide
  ⟨hrange, counters_never_decrease cfgEx envEx (ledgerEx 5 11 0) redeemMsgEx hrange⟩

/-- C9 as stated fails where `total` is the largest `int`: `U1` is in the
ledger with that total, the redemption is accepted, and the total stored
afterwards is the smallest `int`, below the previous one. -/
theorem total_wraps_below_previous :
    ledgerEx 0 9223372036854775807 0 "U1"
      = some { Name := "Ash", Count := 0, Total := 9223372036854775807, LastRedeem := 0 } ∧
    Accepted cfgEx envEx.sinceClock { figmentCounts := some (ledgerEx 0 9223372036854775807 0) }
      redeemMsgEx eventEx ∧
    (step cfgEx envEx { figmentCounts := some (ledgerEx 0 9223372036854775807 0) }
        (Msg.webhook redeemMsgEx)).map (fun r => (r.1.lookup "U1").map (fun e => e.Total))
      = some (some (-9223372036854775808)) ∧
    (-9223372036854775808 : Int) < 9223372036854775807 := by
  decide

/-- C10: handling a webhook message either panics (only on a nil map, for an
accepted redemption) or returns; and when it returns, a user whose entry
differs from before, or is new, is the user of a redemption-add event for the
configured reward that passed the cooldown check, with `last_redeem` equal to
the current time. Every other user's entry is what it was. -/
theorem only_accepted_redemption_changes_entry (cfg : Config) (env : Env) (st : State)
    (msg : WebhookMsg) :
    (st.figmentCounts = none ∧ (∃ data, Accepted cfg env.sinceClock st msg data) ∧
      step cfg env st (Msg.webhook msg) = none) ∨
    ∃ st' effs,
      step cfg env st (Msg.webhook msg) = some (st', effs) ∧
      (∀ u, st'.lookup u ≠ st.lookup u →
        ∃ data, Accepted cfg env.sinceClock st msg data ∧ data.UserID = u ∧
          ∃ e', st'.lookup u = some e' ∧ e'.LastRedeem = env.now) ∧
      (∀ v, (∀ data, Accepted cfg env.sinceClock st msg data → data.UserID ≠ v) →
        st'.lookup v = st.lookup v) := by
  rcases handleWebhook_cases cfg env st msg with ⟨d, hd, h1⟩ | ⟨hno, effs, h1, -⟩
  · obtain ⟨fc⟩ := st
    cases fc with
    | none =>
      left
      exact ⟨rfl, ⟨d, hd⟩, h1.trans rfl⟩
    | some m =>
      right
      obtain ⟨effs, hacc, -, -⟩ := chatTexts_accept cfg env m d
        (prevTotal ⟨some m⟩ d.UserID) (prevCount ⟨some m⟩ d.UserID)
      have hother : ∀ v, v ≠ d.UserID →
          State.lookup ⟨some (m.set d.UserID ⟨d.UserName,
            wrapInt (prevCount ⟨some m⟩ d.UserID + 1),
            wrapInt (prevTotal ⟨some m⟩ d.UserID + 1), env.now⟩)⟩ v
            = State.lookup ⟨some m⟩ v := by
        intro v hv
        simp [State.lookup, Ledger.set, hv]
      refine ⟨_, effs, h1.trans hacc, ?_, ?_⟩
      · intro u hu
        have hud : u = d.UserID := by
          by_contra hne
          exact hu (hother u hne)
        subst hud
        exact ⟨d, hd, rfl, ⟨d.UserName, wrapInt (prevCount ⟨some m⟩ d.UserID + 1),
          wrapInt (prevTotal ⟨some m⟩ d.UserID + 1), env.now⟩,
          by simp [State.lookup, Ledger.set], rfl⟩
      · intro v hv
        exact hother v (fun h => hv d hd h.symm)
  · right
    exact ⟨st, effs, h1, fun u hu => (hu rfl).elim, fun _ _ => rfl⟩

/-- Where the code's suffix and the specification's rule agree: for totals
from 1 on, unless the total is above 20 with last two digits 11, 12 or 13. -/
theorem suffix_eq_spec (total : Int) (hpos : 1 ≤ total)
    (hteens : total ≤ 20 ∨ (total % 100 ≠ 11 ∧ total % 100 ≠ 12 ∧ total % 100 ≠ 13)) :
    suffix total = ordinalSuffixSpec total := by
  have ht : Int.tmod total 10 = total % 10 := Int.tmod_eq_emod (by omega) (by decide)
  unfold suffix ordinalSuffixSpec
  rw [ht]
  split_ifs <;> first | rfl | omega

/-- C1: the total 111. A user with total 110 redeems after the cooldown; the
redemption is accepted with total 111, whose last two digits are 11, and the
reply says "111st" where the rule of the claim gives "th". -/
theorem suffix_of_111_is_st :
    Accepted cfgEx envEx.sinceClock { figmentCounts := some (ledgerEx 0 110 0) }
      redeemMsgEx eventEx ∧
    (step cfgEx envEx { figmentCounts := some (ledgerEx 0 110 0) }
        (Msg.webhook redeemMsgEx)).map (fun r => chatTexts r.2)
      = some ["Ash: You claimed your ⭐ 111st figment! ⭐ (balance: 1)"] ∧
    suffix 111 = "st" ∧ (111 : Int) % 100 = 11 ∧ ordinalSuffixSpec 111 = "th" := by
  decide

end Miragemod
